import Mathlib

/-!
# Verification of `custom_components/be369group.py` (BE369 lock group)

Shallow embedding of the BE369LockGroup component: the availability
reconciler (`lockcodestatus`), the slot-registry code writer (`setcode`),
the activity dispatcher (`lockactivity`), the alarm reassembler
(the COMMAND_CLASS_ALARM branch of `valuechanged`), and the name-store
persistence writer (`store_name_info`).

Python dictionaries (`self.names`, `self.alarms`, `self.values`) are
embedded as association lists over `Nat` keys with first-match lookup;
`del d[k]` removes the key, `d[k] = v` binds it.  The tri-state
`value.available` field (`None` / `True` / `False`) is `Option Bool`:
`none` = unknown, `some true` = available (slot free), `some false` =
occupied.
-/

namespace BE369

/-- Constant `USER_CODE_ENTERED = 16` from the source. -/
def USER_CODE_ENTERED : Nat := 16

/-- Constant `TOO_MANY_FAILED_ATTEMPTS = 96` from the source. -/
def TOO_MANY_FAILED_ATTEMPTS : Nat := 96

/-- Python dict lookup `d[k]` / `k in d`, embedded on an association list. -/
def dictGet {β : Type} : List (Nat × β) → Nat → Option β
  | [], _ => none
  | (k, v) :: t, i => if k = i then some v else dictGet t i

/-- Python `del d[k]`: remove every binding of the key. -/
def dictDel {β : Type} (d : List (Nat × β)) (i : Nat) : List (Nat × β) :=
  d.filter (fun p => p.1 != i)

/-- Python `d[k] = v`: bind the key, shadowing any previous binding. -/
def dictSet {β : Type} (d : List (Nat × β)) (i : Nat) (v : β) : List (Nat × β) :=
  (i, v) :: dictDel d i

/-- The name table `self.names : index -> string`. -/
abbrev Names := List (Nat × String)

/-- Result of one run of `lockcodestatus`: the updated name table, whether
`store_name_info` was called (`stored`), and whether the
locks-disagree warning was logged (`warned`). -/
structure ReconResult where
  names  : Names
  stored : Bool
  warned : Bool
deriving Repr, DecidableEq

/-- Embedding of `BE369LockGroup.lockcodestatus` (source lines 113-131).
`avails` is the list `[v.available for v in self.values[value.index]]`;
`index` is `value.index`; `names` is `self.names` on entry.
`set(thelist)` membership and size checks become `none ∈ avails` and
`avails.dedup.length`; the string written is the source's literal
`"Unamed Entry {}"`. -/
def lockcodestatus (avails : List (Option Bool)) (index : Nat)
    (names : Names) : ReconResult :=
  if none ∈ avails then
    ⟨names, false, false⟩
  else if avails.dedup.length ≠ 1 then
    ⟨names, false, true⟩
  else if avails.headD none = some true then
    if (dictGet names index).isSome then
      ⟨dictDel names index, true, false⟩
    else
      ⟨names, false, false⟩
  else
    if (dictGet names index).isNone then
      ⟨dictSet names index ("Unamed Entry " ++ toString index), true, false⟩
    else
      ⟨names, false, false⟩

/-- The per-slot observation lists `self.values : index -> [Value]`,
projected to the per-device availability tri-states that
`lockcodestatus` reads. -/
abbrev ValuesTable := List (Nat × List (Option Bool))

/-- Embedding of `self.values[index]` where `self.values` is
`collections.defaultdict(list)`: a missing key yields the empty list. -/
def observationsFor (values : ValuesTable) (index : Nat) : List (Option Bool) :=
  match dictGet values index with
  | some l => l
  | none => []

/-- Embedding of the COMMAND_CLASS_USER_CODE branch of
`BE369LockGroup.valuechanged` (source lines 163-167) after the
availability bit has been decoded: it runs `lockcodestatus` on the
observation list that the defaultdict returns for `value.index`. -/
def userCodeValueChanged (values : ValuesTable) (index : Nat)
    (names : Names) : ReconResult :=
  lockcodestatus (observationsFor values index) index names

/-- Result of `setcode`: the code payloads of the observations at the
requested index, the name table, and whether the invalid-code
warning was logged. -/
structure SetcodeResult where
  datas  : List String
  names  : Names
  warned : Bool
deriving Repr, DecidableEq

/-- Embedding of the validation `ord(x) in range(0x30, 0x39)` from
source line 100: Python `range` excludes its upper bound. -/
def isValidCodeChar (c : Char) : Bool :=
  0x30 ≤ c.toNat && c.toNat < 0x39

/-- Embedding of `BE369LockGroup.setcode` (source lines 94-104) acting on
the registered observations at the chosen index: `datas` is
`[v.data for v in self.values[index]]`.  On validation failure it logs a
warning and returns without writing; `self.names` is never touched. -/
def setcode (value : String) (datas : List String) (names : Names) :
    SetcodeResult :=
  if value.toList.all isValidCodeChar then
    ⟨datas.map (fun _ => value), names, false⟩
  else
    ⟨datas, names, true⟩

/-- Outward actions of one `lockactivity` call: number of logbook
entries, titles of persistent notifications raised, number of
warning-level log lines. -/
structure ActivityOutput where
  logEntries : Nat
  alerts     : List String
  warnings   : Nat
deriving Repr, DecidableEq

/-- Embedding of `BE369LockGroup.lockactivity` (source lines 134-145). -/
def lockactivity (atype : Nat) : ActivityOutput :=
  if atype = USER_CODE_ENTERED then
    ⟨1, [], 0⟩
  else if atype = TOO_MANY_FAILED_ATTEMPTS then
    ⟨0, ["Potential Prowler"], 1⟩
  else
    ⟨0, [], 1⟩

/-- The two-element alarm buffer `self.alarms[nodeid] = [alarmtype, alarmval]`,
each element `None` until its sub-field arrives. -/
abbrev AlarmBits := Option Nat × Option Nat

/-- The alarm table `self.alarms : nodeid -> [alarmtype, alarmval]`. -/
abbrev Alarms := List (Nat × AlarmBits)

/-- Embedding of the COMMAND_CLASS_ALARM branch of
`BE369LockGroup.valuechanged` (source lines 170-181).  A device absent
from `self.alarms` fails the `value.parent_id in self.alarms` guard and is
ignored.  Otherwise the sub-field is stored at `value.index`
(an out-of-range index raises IndexError, is caught, and mutates
nothing); when both slots are non-absent the combined event
`(parent_id, bits[0], bits[1])` is emitted and the buffer resets to
`[None, None]`.  `storeBit` is the in-place assignment
`bits[value.index] = value.data`: an index other than 0 or 1 raises
IndexError (caught by the handler) and mutates nothing. -/
def storeBit (bits : AlarmBits) (idx data : Nat) : AlarmBits :=
  if idx = 0 then (some data, bits.2)
  else if idx = 1 then (bits.1, some data)
  else bits

/-- Embedding of the COMMAND_CLASS_ALARM branch of `valuechanged`
(source lines 170-181), continued: store the sub-field, and when both
slots are non-absent emit `(parent_id, bits[0], bits[1])` and reset the
buffer.  Returns the new table and the emitted events. -/
def deliverAlarm (alarms : Alarms) (pid idx data : Nat) :
    Alarms × List (Nat × Nat × Nat) :=
  match dictGet alarms pid with
  | none => (alarms, [])
  | some bits =>
      match storeBit bits idx data with
      | (some a, some v) => (dictSet alarms pid (none, none), [(pid, a, v)])
      | bits1 => (dictSet alarms pid bits1, [])

/-- Folds `deliverAlarm` over a sequence of `(parent_id, index, data)`
sub-field notifications, concatenating the emitted events. -/
def runAlarmEvents (alarms : Alarms) :
    List (Nat × Nat × Nat) → Alarms × List (Nat × Nat × Nat)
  | [] => (alarms, [])
  | (pid, idx, data) :: rest =>
      let step := deliverAlarm alarms pid idx data
      let tail := runAlarmEvents step.1 rest
      (tail.1, step.2 ++ tail.2)

/-- The buffer slot other than index `j`: the slot a device delivering
sub-fields only at index `j` never fills. -/
def otherOf (j : Nat) (b : AlarmBits) : Option Nat :=
  if j = 0 then b.2 else b.1

/-- File-level operations performed by `store_name_info`:
`open(path, "w")` truncates the existing file in place, and each
`out.write(s)` appends `s`. -/
inductive FileOp
  | openTruncate
  | write (s : String)
deriving Repr, DecidableEq

/-- The header comment written first by `store_name_info` (source line 90). -/
def headerComment : String :=
  "# Autogenerated file to survive data across restarts, I wouldn't recommend editing\n"

/-- Models `homeassistant.util.yaml.dump` on the name table: one
`key: value` line per entry. -/
def dumpNames : Names → String
  | [] => ""
  | (k, v) :: t => toString k ++ ": " ++ v ++ "\n" ++ dumpNames t

/-- Embedding of `BE369LockGroup.store_name_info` (source lines 87-91) as
the sequence of file operations it performs on the persist file:
open-for-write (truncating), write the header comment, write the
serialized mapping. -/
def store_name_info (names : Names) : List FileOp :=
  [FileOp.openTruncate, FileOp.write headerComment,
   FileOp.write (dumpNames names)]

/-- Contents of the backing file (`none` = file does not exist) after
executing a sequence of file operations. -/
def runOps (contents : Option String) : List FileOp → Option String
  | [] => contents
  | FileOp.openTruncate :: rest => runOps (some "") rest
  | FileOp.write s :: rest =>
      runOps (some ((contents.getD "") ++ s)) rest

/-- Crash-safety in the sense of the spec's `save()` contract: however
far the operation sequence got before a crash, the file holds either
the old contents or the fully written new contents. -/
def crashSafe (old : String) (ops : List FileOp) : Prop :=
  ∀ k : Nat, runOps (some old) (ops.take k) = some old ∨
    runOps (some old) (ops.take k) = runOps (some old) ops

/-! ## Helper lemmas about the dictionary embedding -/

theorem dictGet_dictSet_self {β : Type} (d : List (Nat × β)) (i : Nat) (v : β) :
    dictGet (dictSet d i v) i = some v := by
  simp [dictSet, dictGet]

theorem dictGet_dictDel_self {β : Type} (d : List (Nat × β)) (i : Nat) :
    dictGet (dictDel d i) i = none := by
  induction d with
  | nil => rfl
  | cons p t ih =>
    by_cases h : p.1 = i
    · simpa [dictDel, List.filter_cons, h] using ih
    · simpa [dictDel, List.filter_cons, h, dictGet] using ih

theorem dictGet_dictDel_ne {β : Type} (d : List (Nat × β)) (i k : Nat)
    (h : i ≠ k) : dictGet (dictDel d k) i = dictGet d i := by
  induction d with
  | nil => rfl
  | cons p t ih =>
    obtain ⟨a, b⟩ := p
    by_cases hp : a = k
    · subst hp
      have hki : ¬ a = i := fun he => h he.symm
      simpa [dictDel, List.filter_cons, dictGet, hki] using ih
    · by_cases hq : a = i
      · simp [dictDel, List.filter_cons, hp, dictGet, hq, h]
      · simpa [dictDel, List.filter_cons, hp, dictGet, hq] using ih

theorem dictGet_dictSet_ne {β : Type} (d : List (Nat × β)) (i k : Nat)
    (v : β) (h : i ≠ k) : dictGet (dictSet d k v) i = dictGet d i := by
  have : k ≠ i := fun he => h he.symm
  simp [dictSet, dictGet, this, dictGet_dictDel_ne d i k h]

/-- The set of a nonempty constant list is a singleton. -/
theorem dedup_of_const {l : List (Option Bool)} {x : Option Bool}
    (hne : l ≠ []) (h : ∀ a ∈ l, a = x) : l.dedup = [x] := by
  induction l with
  | nil => exact absurd rfl hne
  | cons a t ih =>
    have ha : a = x := h a (List.mem_cons_self a t)
    cases t with
    | nil => simp [ha]
    | cons b t2 =>
      have hb : b = x := h b (by simp)
      have hd : (b :: t2).dedup = [x] :=
        ih (by simp) (fun c hc => h c (List.mem_cons_of_mem _ hc))
      have hmem : a ∈ b :: t2 := by
        rw [ha, ← hb]; exact List.mem_cons_self b t2
      rw [List.dedup_cons_of_mem hmem, hd]

/-- Equation for `lockcodestatus` while some observation is unknown. -/
theorem lockcodestatus_unknown (avails : List (Option Bool))
    (h : none ∈ avails) :
    ∀ index names, lockcodestatus avails index names = ⟨names, false, false⟩ := by
  intro index names
  unfold lockcodestatus
  rw [if_pos h]

/-- Equation for `lockcodestatus` when no observation is unknown but the
availability set is not a singleton. -/
theorem lockcodestatus_disagree (avails : List (Option Bool))
    (h1 : none ∉ avails) (h2 : avails.dedup.length ≠ 1) :
    ∀ index names, lockcodestatus avails index names = ⟨names, false, true⟩ := by
  intro index names
  unfold lockcodestatus
  rw [if_neg h1, if_pos h2]

/-- Equation for `lockcodestatus` on unanimous availability. -/
theorem lockcodestatus_available (avails : List (Option Bool))
    (h1 : none ∉ avails) (h2 : ¬ avails.dedup.length ≠ 1)
    (h3 : avails.headD none = some true) :
    ∀ index names, lockcodestatus avails index names =
      if (dictGet names index).isSome then ⟨dictDel names index, true, false⟩
      else ⟨names, false, false⟩ := by
  intro index names
  unfold lockcodestatus
  rw [if_neg h1, if_neg h2, if_pos h3]

/-- Equation for `lockcodestatus` on unanimous occupancy. -/
theorem lockcodestatus_occupied (avails : List (Option Bool))
    (h1 : none ∉ avails) (h2 : ¬ avails.dedup.length ≠ 1)
    (h3 : ¬ avails.headD none = some true) :
    ∀ index names, lockcodestatus avails index names =
      if (dictGet names index).isNone then
        ⟨dictSet names index ("Unamed Entry " ++ toString index), true, false⟩
      else ⟨names, false, false⟩ := by
  intro index names
  unfold lockcodestatus
  rw [if_neg h1, if_neg h2, if_neg h3]

/-- Characterization of `lockcodestatus` when every registered observation
reports the same non-unknown availability `u`. -/
theorem lockcodestatus_unanimous (avails : List (Option Bool)) (u : Bool)
    (hne : avails ≠ []) (hu : ∀ a ∈ avails, a = some u) :
    ∀ index names, lockcodestatus avails index names =
      if u then
        (if (dictGet names index).isSome then ⟨dictDel names index, true, false⟩
         else ⟨names, false, false⟩)
      else
        (if (dictGet names index).isNone then
           ⟨dictSet names index ("Unamed Entry " ++ toString index), true, false⟩
         else ⟨names, false, false⟩) := by
  intro index names
  have hnn : none ∉ avails := fun hm => by simpa using hu none hm
  have hd : avails.dedup = [some u] := dedup_of_const hne hu
  have h2 : ¬ avails.dedup.length ≠ 1 := by rw [hd]; simp
  have hh : avails.headD none = some u := by
    cases avails with
    | nil => exact absurd rfl hne
    | cons a t => simpa using hu a (List.mem_cons_self a t)
  cases u with
  | true =>
    rw [lockcodestatus_available avails hnn h2 hh]
    simp
  | false =>
    have h3 : ¬ avails.headD none = some true := by rw [hh]; simp
    rw [lockcodestatus_occupied avails hnn h2 h3]
    simp

/-! ## The claims -/

/-- C1: for every slot with at least two registered device observations,
after the reconciler processes a refresh that leaves every observation's
availability non-unknown and unanimous, a Name Entry for that slot exists
iff the unanimous value is occupied (`available = False`). -/
theorem C1_entry_iff_occupied (avails : List (Option Bool)) (index : Nat)
    (names : Names) (u : Bool) (h2 : 2 ≤ avails.length)
    (hu : ∀ a ∈ avails, a = some u) :
    (dictGet (lockcodestatus avails index names).names index).isSome
      ↔ u = false := by
  have hne : avails ≠ [] := by
    intro he; rw [he] at h2; simp at h2
  rw [lockcodestatus_unanimous avails u hne hu index names]
  cases u with
  | true =>
    by_cases hs : (dictGet names index).isSome
    · simp [hs, dictGet_dictDel_self]
    · simp [hs]
  | false =>
    by_cases hs : dictGet names index = none
    · simp [hs, dictGet_dictSet_self]
    · simp [Option.isNone_iff_eq_none, hs, Option.isSome_iff_ne_none]

/-- C1 witness: two observations, both occupied, at slot 4. -/
theorem C1_entry_iff_occupied_witness :
    (dictGet (lockcodestatus [some false, some false] 4 []).names 4).isSome
      ↔ false = false :=
  C1_entry_iff_occupied [some false, some false] 4 [] false (by decide)
    (by decide)

/-- C4 counterexample: with two occupied observations at slot 5 and no
existing entry, the created Name Entry is the source's literal
`"Unamed Entry 5"`, not the claimed `"Unnamed Entry 5"`. -/
theorem C4_counterexample :
    dictGet (lockcodestatus [some false, some false] 5 []).names 5
        = some "Unamed Entry 5" ∧
    ("Unamed Entry 5" : String) ≠ "Unnamed Entry 5" := by
  exact ⟨by decide, by decide⟩

/-- C4 (amended): for every slot whose registered observations are
unanimously occupied and which has no Name Entry, the reconciler creates
an entry whose value is exactly `"Unamed Entry <slot>"` (the source's
spelling) and persists the Name Store. -/
theorem C4_placeholder_name (avails : List (Option Bool)) (index : Nat)
    (names : Names) (hne : avails ≠ [])
    (hocc : ∀ a ∈ avails, a = some false)
    (habs : dictGet names index = none) :
    dictGet (lockcodestatus avails index names).names index
        = some ("Unamed Entry " ++ toString index) ∧
    (lockcodestatus avails index names).stored = true := by
  rw [lockcodestatus_unanimous avails false hne hocc index names]
  simp [habs, dictGet_dictSet_self]

/-- C4 witness: two occupied observations at slot 5, empty name table. -/
theorem C4_placeholder_name_witness :
    dictGet (lockcodestatus [some false, some false] 5 []).names 5
        = some ("Unamed Entry " ++ toString 5) ∧
    (lockcodestatus [some false, some false] 5 []).stored = true :=
  C4_placeholder_name [some false, some false] 5 [] (by decide) (by decide)
    (by decide)

/-- C5: if any observation's availability is unknown, the reconciler
leaves the name table unchanged, stores nothing and warns nothing; if
none is unknown but the availability set is not a singleton, it leaves
the name table unchanged, stores nothing and logs the disagreement
warning. -/
theorem C5_frame_on_unknown_or_disagree (avails : List (Option Bool))
    (index : Nat) (names : Names) :
    (none ∈ avails → lockcodestatus avails index names = ⟨names, false, false⟩) ∧
    (none ∉ avails → avails.dedup.length ≠ 1 →
       lockcodestatus avails index names = ⟨names, false, true⟩) := by
  constructor
  · intro h; exact lockcodestatus_unknown avails h index names
  · intro h1 h2; exact lockcodestatus_disagree avails h1 h2 index names

/-- C5 witness: an unknown observation, and a genuine disagreement. -/
theorem C5_frame_on_unknown_or_disagree_witness :
    lockcodestatus [none, some true] 3 [(3, "Bob")]
        = ⟨[(3, "Bob")], false, false⟩ ∧
    lockcodestatus [some true, some false] 3 [(3, "Bob")]
        = ⟨[(3, "Bob")], false, true⟩ :=
  ⟨(C5_frame_on_unknown_or_disagree [none, some true] 3 [(3, "Bob")]).1
      (by decide),
   (C5_frame_on_unknown_or_disagree [some true, some false] 3 [(3, "Bob")]).2
      (by decide) (by decide)⟩

/-- C8: the reconciler is idempotent — rerunning `lockcodestatus` with the
same availability list on the name table it produced changes nothing and
performs no further store write. -/
theorem C8_idempotent (avails : List (Option Bool)) (index : Nat)
    (names : Names) :
    (lockcodestatus avails index
        (lockcodestatus avails index names).names).names
      = (lockcodestatus avails index names).names ∧
    (lockcodestatus avails index
        (lockcodestatus avails index names).names).stored = false := by
  by_cases h1 : none ∈ avails
  · simp [lockcodestatus_unknown avails h1]
  · by_cases h2 : avails.dedup.length ≠ 1
    · simp [lockcodestatus_disagree avails h1 h2]
    · by_cases h3 : avails.headD none = some true
      · by_cases h4 : (dictGet names index).isSome
        · simp [lockcodestatus_available avails h1 h2 h3, h4,
            dictGet_dictDel_self]
        · simp [lockcodestatus_available avails h1 h2 h3, h4]
      · by_cases h4 : (dictGet names index).isNone
        · simp [lockcodestatus_occupied avails h1 h2 h3, h4,
            dictGet_dictSet_self]
        · simp [lockcodestatus_occupied avails h1 h2 h3, h4]

/-- C10: a user-code value change for a slot with no registered
observation is not ignored — the reconciler runs on the defaultdict's
empty list, treats the empty availability set as a disagreement, logs
the locks-disagree warning, and leaves the name table unchanged. -/
theorem C10_unregistered_slot_warns (values : ValuesTable) (index : Nat)
    (names : Names) (h : dictGet values index = none) :
    userCodeValueChanged values index names = ⟨names, false, true⟩ := by
  unfold userCodeValueChanged observationsFor
  rw [h]
  simp [lockcodestatus]

/-- C10 witness: slot 255 has no registered observation. -/
theorem C10_unregistered_slot_warns_witness :
    userCodeValueChanged [(1, [some true])] 255 [(5, "Bob")]
        = ⟨[(5, "Bob")], false, true⟩ :=
  C10_unregistered_slot_warns [(1, [some true])] 255 [(5, "Bob")] (by decide)

theorem dictDel_dictDel {β : Type} (d : List (Nat × β)) (i : Nat) :
    dictDel (dictDel d i) i = dictDel d i := by
  unfold dictDel
  rw [List.filter_filter]
  congr 1
  funext p
  rw [Bool.and_self]

theorem dictSet_dictSet {β : Type} (d : List (Nat × β)) (i : Nat) (b c : β) :
    dictSet (dictSet d i b) i c = dictSet d i c := by
  unfold dictSet
  have : dictDel ((i, b) :: dictDel d i) i = dictDel (dictDel d i) i := by
    simp [dictDel, List.filter_cons]
  rw [this, dictDel_dictDel]

/-- A sub-field for a device that is not in `self.alarms` is ignored
entirely: no buffer changes and nothing is emitted. -/
theorem deliverAlarm_untracked (alarms : Alarms) (pid idx data : Nat)
    (h : dictGet alarms pid = none) :
    deliverAlarm alarms pid idx data = (alarms, []) := by
  simp [deliverAlarm, h]

/-- Every event emitted by one delivery carries the delivering device's id. -/
theorem deliverAlarm_emits_pid (alarms : Alarms) (pid idx data : Nat) :
    ∀ e ∈ (deliverAlarm alarms pid idx data).2, e.1 = pid := by
  intro e he
  cases hg : dictGet alarms pid with
  | none => simp only [deliverAlarm, hg] at he; simp at he
  | some bits =>
    simp only [deliverAlarm, hg] at he
    rcases hsb : storeBit bits idx data with ⟨b0, b1⟩
    rw [hsb] at he
    cases b0 <;> cases b1 <;> simp_all

/-- A delivery for device `pid` leaves every other device's buffer alone. -/
theorem deliverAlarm_frame (alarms : Alarms) (pid idx data d : Nat)
    (hne : d ≠ pid) :
    dictGet (deliverAlarm alarms pid idx data).1 d = dictGet alarms d := by
  unfold deliverAlarm
  cases hg : dictGet alarms pid with
  | none => rfl
  | some bits =>
    rcases hsb : storeBit bits idx data with ⟨b0, b1⟩
    cases b0 <;> cases b1 <;>
      simp [hsb, dictGet_dictSet_ne _ _ _ _ hne]

/-- A device whose buffer slot other than `j` is absent emits nothing on
a delivery at index `j`, and that slot stays absent. -/
theorem deliverAlarm_own_index (alarms : Alarms) (d j data : Nat)
    (hj : j = 0 ∨ j = 1)
    (hinv : ∀ b, dictGet alarms d = some b → otherOf j b = none) :
    (deliverAlarm alarms d j data).2 = [] ∧
    (∀ b, dictGet (deliverAlarm alarms d j data).1 d = some b →
       otherOf j b = none) := by
  unfold deliverAlarm
  cases hg : dictGet alarms d with
  | none => exact ⟨rfl, fun b hb => hinv b hb⟩
  | some bits =>
    have hb := hinv bits hg
    obtain ⟨b0, b1⟩ := bits
    rcases hj with hj | hj <;> subst hj
    · simp only [otherOf, if_pos rfl] at hb
      subst hb
      simp [storeBit, otherOf, dictGet_dictSet_self]
    · simp only [otherOf, if_neg one_ne_zero] at hb
      subst hb
      simp [storeBit, otherOf, dictGet_dictSet_self]

/-- Along any delivery sequence in which device `d` only ever receives
sub-fields at the single index `j`, no event for `d` is emitted. -/
theorem runAlarm_single_index (d j : Nat) (hj : j = 0 ∨ j = 1)
    (evs : List (Nat × Nat × Nat)) :
    ∀ alarms : Alarms,
      (∀ b, dictGet alarms d = some b → otherOf j b = none) →
      (∀ e ∈ evs, e.1 = d → e.2.1 = j) →
      ∀ e ∈ (runAlarmEvents alarms evs).2, e.1 ≠ d := by
  induction evs with
  | nil =>
    intro alarms hinv hevs e he
    simp [runAlarmEvents] at he
  | cons ev rest ih =>
    intro alarms hinv hevs e he
    obtain ⟨pid, idx, data⟩ := ev
    simp only [runAlarmEvents] at he
    rcases List.mem_append.mp he with hl | hr
    · by_cases hpd : pid = d
      · subst hpd
        have hidx : idx = j := hevs (pid, idx, data) (by simp) rfl
        subst hidx
        rw [(deliverAlarm_own_index alarms pid idx data hj hinv).1] at hl
        simp at hl
      · intro hed
        exact hpd ((deliverAlarm_emits_pid alarms pid idx data e hl).symm.trans hed)
    · by_cases hpd : pid = d
      · subst hpd
        have hidx : idx = j := hevs (pid, idx, data) (by simp) rfl
        subst hidx
        exact ih (deliverAlarm alarms pid idx data).1
          (deliverAlarm_own_index alarms pid idx data hj hinv).2
          (fun e2 he2 h2 => hevs e2 (List.mem_cons_of_mem _ he2) h2) e hr
      · have hfr := deliverAlarm_frame alarms pid idx data d
          (fun hh => hpd hh.symm)
        exact ih (deliverAlarm alarms pid idx data).1
          (fun b hb => hinv b (hfr ▸ hb))
          (fun e2 he2 h2 => hevs e2 (List.mem_cons_of_mem _ he2) h2) e hr

/-- C7: the reassembler never emits with only one sub-field — along any
delivery sequence in which device `d` only ever receives sub-fields at
one index `j`, starting from a state where `d`'s other buffer slot is
absent (as at registration), no event for `d` is emitted; and a
sub-field for an untracked device is ignored entirely, leaving every
buffer unchanged and emitting nothing. -/
theorem C7_no_partial_emission (alarms : Alarms) (d j : Nat)
    (evs : List (Nat × Nat × Nat)) (pid idx data : Nat)
    (hj : j = 0 ∨ j = 1)
    (hinit : ∀ b, dictGet alarms d = some b → otherOf j b = none)
    (hevs : ∀ e ∈ evs, e.1 = d → e.2.1 = j) :
    (∀ e ∈ (runAlarmEvents alarms evs).2, e.1 ≠ d) ∧
    (dictGet alarms pid = none →
       deliverAlarm alarms pid idx data = (alarms, [])) :=
  ⟨runAlarm_single_index d j hj evs alarms hinit hevs,
   fun h => deliverAlarm_untracked alarms pid idx data h⟩

/-- C7 witness: device 7 only ever receives index-0 sub-fields (device 9
is untracked, so its index-1 delivery is ignored); device 8 is untracked
and its delivery changes nothing. -/
theorem C7_no_partial_emission_witness :
    (∀ e ∈ (runAlarmEvents [(7, (none, none))]
         [(7, 0, 16), (7, 0, 20), (9, 1, 3)]).2, e.1 ≠ 7) ∧
    (dictGet [(7, ((none : Option Nat), (none : Option Nat)))] 8 = none →
       deliverAlarm [(7, (none, none))] 8 0 5 = ([(7, (none, none))], [])) :=
  C7_no_partial_emission [(7, (none, none))] 7 0
    [(7, 0, 16), (7, 0, 20), (9, 1, 3)] 8 0 5 (Or.inl rfl)
    (fun b hb => by
      simp [dictGet] at hb
      simp [← hb, otherOf])
    (by decide)

/-- C2: delivering the two alarm sub-fields of a tracked device with an
empty buffer, in either order, yields exactly one combined event
`(deviceId, alarmType = slot 0 value, alarmValue = slot 1 value)`, resets
the device's buffer to fully absent, and both delivery orders end in the
same alarm table. -/
theorem C2_alarm_roundtrip (alarms : Alarms) (pid a v : Nat)
    (h : dictGet alarms pid = some (none, none)) :
    ((deliverAlarm alarms pid 0 a).2 ++
       (deliverAlarm (deliverAlarm alarms pid 0 a).1 pid 1 v).2
         = [(pid, a, v)]) ∧
    (dictGet (deliverAlarm (deliverAlarm alarms pid 0 a).1 pid 1 v).1 pid
         = some (none, none)) ∧
    ((deliverAlarm alarms pid 1 v).2 ++
       (deliverAlarm (deliverAlarm alarms pid 1 v).1 pid 0 a).2
         = [(pid, a, v)]) ∧
    (dictGet (deliverAlarm (deliverAlarm alarms pid 1 v).1 pid 0 a).1 pid
         = some (none, none)) ∧
    ((deliverAlarm (deliverAlarm alarms pid 0 a).1 pid 1 v).1
         = (deliverAlarm (deliverAlarm alarms pid 1 v).1 pid 0 a).1) := by
  have e1 : deliverAlarm alarms pid 0 a
      = (dictSet alarms pid (some a, none), []) := by
    simp [deliverAlarm, storeBit, h]
  have g1 : dictGet (dictSet alarms pid ((some a : Option Nat), (none : Option Nat))) pid
      = some (some a, none) := dictGet_dictSet_self _ _ _
  have e2 : deliverAlarm (dictSet alarms pid (some a, none)) pid 1 v
      = (dictSet (dictSet alarms pid (some a, none)) pid (none, none),
         [(pid, a, v)]) := by
    simp [deliverAlarm, storeBit, g1]
  have e3 : deliverAlarm alarms pid 1 v
      = (dictSet alarms pid (none, some v), []) := by
    simp [deliverAlarm, storeBit, h]
  have g3 : dictGet (dictSet alarms pid ((none : Option Nat), (some v : Option Nat))) pid
      = some (none, some v) := dictGet_dictSet_self _ _ _
  have e4 : deliverAlarm (dictSet alarms pid (none, some v)) pid 0 a
      = (dictSet (dictSet alarms pid (none, some v)) pid (none, none),
         [(pid, a, v)]) := by
    simp [deliverAlarm, storeBit, g3]
  refine ⟨?_, ?_, ?_, ?_, ?_⟩ <;>
    simp [e1, e2, e3, e4, dictGet_dictSet_self, dictSet_dictSet]

/-- C2 witness: device 7 tracked with an empty buffer, sub-fields 16 and 3. -/
theorem C2_alarm_roundtrip_witness :
    ((deliverAlarm [(7, (none, none))] 7 0 16).2 ++
       (deliverAlarm (deliverAlarm [(7, (none, none))] 7 0 16).1 7 1 3).2
         = [(7, 16, 3)]) ∧
    (dictGet (deliverAlarm (deliverAlarm [(7, (none, none))] 7 0 16).1 7 1 3).1 7
         = some (none, none)) ∧
    ((deliverAlarm [(7, (none, none))] 7 1 3).2 ++
       (deliverAlarm (deliverAlarm [(7, (none, none))] 7 1 3).1 7 0 16).2
         = [(7, 16, 3)]) ∧
    (dictGet (deliverAlarm (deliverAlarm [(7, (none, none))] 7 1 3).1 7 0 16).1 7
         = some (none, none)) ∧
    ((deliverAlarm (deliverAlarm [(7, (none, none))] 7 0 16).1 7 1 3).1
         = (deliverAlarm (deliverAlarm [(7, (none, none))] 7 1 3).1 7 0 16).1) :=
  C2_alarm_roundtrip [(7, (none, none))] 7 16 3 (by decide)

/-- C3: the digit `'9'` (code point 0x39) is rejected by `setcode`'s
validation because Python's `range(0x30, 0x39)` excludes its upper bound:
a payload of `"9"` logs the warning and writes to no observation and to
no name entry, while `"12345678"` is accepted and written everywhere. -/
theorem C3_digit_nine_rejected :
    setcode "9" ["1234", "5678"] [(1, "Bob")]
        = ⟨["1234", "5678"], [(1, "Bob")], true⟩ ∧
    setcode "12345678" ["1234", "5678"] [(1, "Bob")]
        = ⟨["12345678", "12345678"], [(1, "Bob")], false⟩ := by
  exact ⟨by decide, by decide⟩

/-- C6: the dispatcher performs exactly one outward action set by the
alarm type — type 16 one activity-log entry and nothing else, type 96 one
"Potential Prowler" alert plus one warning, anything else one warning
only. -/
theorem C6_dispatcher_actions (atype : Nat) :
    (atype = USER_CODE_ENTERED → lockactivity atype = ⟨1, [], 0⟩) ∧
    (atype = TOO_MANY_FAILED_ATTEMPTS →
       lockactivity atype = ⟨0, ["Potential Prowler"], 1⟩) ∧
    (atype ≠ USER_CODE_ENTERED → atype ≠ TOO_MANY_FAILED_ATTEMPTS →
       lockactivity atype = ⟨0, [], 1⟩) := by
  refine ⟨?_, ?_, ?_⟩ <;> intros <;>
    simp_all [lockactivity, USER_CODE_ENTERED, TOO_MANY_FAILED_ATTEMPTS]

/-- C6 witness: the three alarm-type classes at 16, 96 and 17. -/
theorem C6_dispatcher_actions_witness :
    lockactivity 16 = ⟨1, [], 0⟩ ∧
    lockactivity 96 = ⟨0, ["Potential Prowler"], 1⟩ ∧
    lockactivity 17 = ⟨0, [], 1⟩ :=
  ⟨(C6_dispatcher_actions 16).1 rfl,
   (C6_dispatcher_actions 96).2.1 rfl,
   (C6_dispatcher_actions 17).2.2 (by decide) (by decide)⟩

/-- C9 counterexample: with `"5: Bob\n"` persisted, a crash right after
`store_name_info [(5, "Alice")]` opens the file leaves it empty — neither
the old nor the new contents — so the write is not crash-safe. -/
theorem C9_counterexample :
    ¬ crashSafe "5: Bob\n" (store_name_info [(5, "Alice")]) := by
  intro h
  have h1 := h 1
  revert h1
  decide

/-- C9 (amended): `store_name_info` rewrites the persist file in place —
it opens the file for writing, truncating the existing contents, then
writes the header comment and the serialized mapping, so a completed run
leaves exactly header-plus-mapping but the state right after the open is
an empty file, not the old data: the overwrite is in-place truncation
before the new write, not write-then-replace. -/
theorem C9_in_place_rewrite (names : Names) (old : String) :
    runOps (some old) (store_name_info names)
        = some (headerComment ++ dumpNames names) ∧
    runOps (some old) ((store_name_info names).take 1) = some "" := by
  constructor
  · simp [store_name_info, runOps, String.empty_append]
  · simp [store_name_info, runOps]

end BE369
